import Mathlib

/-!
Shallow embedding of the color/state synchronization core of the
"highlighterperp" browser extension (src/background.js and the
options-page color picker in src/shortcuts-settings.js), together with
theorems settling the specification claims about it.

Storage (`browserAPI.storage.local`) is modelled explicitly: the
`customColors` key as a list of color records inside `BgState`, and the
per-URL highlight keys as an association list (`Storage`).  Asynchronous
message handlers become pure functions from state and message payload to
a response, a new state, and the list of tabs that were successfully
notified by the post-mutation broadcast.
-/

/-- Maximum number of custom colors allowed (background.js line 5 and
shortcuts-settings.js). -/
def MAX_CUSTOM_COLORS : Nat := 20

/-- ASCII case folding of one character, lower-casing `A`-`Z`: the effect
of JavaScript `toLowerCase()` on the hex color strings this extension
handles. -/
def jsCharToLower (c : Char) : Char :=
  if 65 ≤ c.toNat ∧ c.toNat ≤ 90 then Char.ofNat (c.toNat + 32) else c

/-- ASCII case folding of one character, upper-casing `a`-`z`: the effect
of JavaScript `toUpperCase()` on hex color strings. -/
def jsCharToUpper (c : Char) : Char :=
  if 97 ≤ c.toNat ∧ c.toNat ≤ 122 then Char.ofNat (c.toNat - 32) else c

/-- Model of JavaScript `String.prototype.toLowerCase` (ASCII range). -/
def jsToLower (s : String) : String := ⟨s.data.map jsCharToLower⟩

/-- Model of JavaScript `String.prototype.toUpperCase` (ASCII range). -/
def jsToUpper (s : String) : String := ⟨s.data.map jsCharToUpper⟩

/-- A custom color record as persisted under the `customColors` storage
key: `{ id, nameKey, colorNumber, color }` (background.js lines 447-452). -/
structure ColorRecord where
  id : String
  nameKey : String
  colorNumber : Nat
  color : String
deriving Repr, DecidableEq

/-- Background-script state: the persisted `customColors` collection and
the in-memory mirror `currentColors` (background.js line 49). -/
structure BgState where
  customColors : List ColorRecord
  currentColors : List ColorRecord
deriving Repr, DecidableEq

/-- Response shape of the `addColor` message handler: `success` always
present, `error` and `colors` optional (background.js lines 423-472). -/
structure AddResponse where
  success : Bool
  error : Option String
  colors : Option (List ColorRecord)
deriving Repr, DecidableEq

/-- One delivery attempt of a `colorsUpdated` notification to a tab:
`browserAPI.tabs.sendMessage` succeeds exactly when the tab still has a
listener; a failure is caught and logged (background.js lines 463-469). -/
def sendColorsToTab (hasListener : Nat → Bool) (t : Nat) : Bool :=
  hasListener t

/-- The broadcast loop `for (const tab of tabs) { try ... catch ... }`
(background.js lines 462-469): every tab is attempted in order; a failed
delivery is swallowed and the loop continues.  Returns the tabs that
received the notification. -/
def broadcastColors (hasListener : Nat → Bool) : List Nat → List Nat
  | [] => []
  | t :: rest =>
    if sendColorsToTab hasListener t then
      t :: broadcastColors hasListener rest
    else
      broadcastColors hasListener rest

/-- Outcome of one run of the `addColor` handler: the response sent back,
the resulting state, and the tabs notified by the broadcast. -/
structure AddOutcome where
  resp : AddResponse
  state : BgState
  notified : List Nat
deriving Repr, DecidableEq

/-- The `addColor` message handler (background.js lines 423-472).
`now` stands for `Date.now()` (used to mint the record id); `colorMsg` is
`message.color`, with `none` or `some ""` both falsy in JS. -/
def addColor (st : BgState) (now : Nat) (tabs : List Nat)
    (hasListener : Nat → Bool) (colorMsg : Option String) : AddOutcome :=
  let reject : AddOutcome :=
    { resp := { success := false, error := none, colors := none },
      state := st, notified := [] }
  match colorMsg with
  | none => reject
  | some v =>
    if v = "" then reject
    else if MAX_CUSTOM_COLORS ≤ st.customColors.length then
      { resp := { success := false, error := some "Maximum color limit reached",
                  colors := some st.currentColors },
        state := st, notified := [] }
    else if st.customColors.any (fun c => jsToLower c.color = jsToLower v) then
      { resp := { success := true, error := none, colors := some st.currentColors },
        state := st, notified := [] }
    else
      let newColorObj : ColorRecord :=
        { id := "custom_" ++ toString now, nameKey := "customColor",
          colorNumber := st.customColors.length + 1, color := v }
      let customColors' := st.customColors ++ [newColorObj]
      let currentColors' := st.currentColors ++ [newColorObj]
      { resp := { success := true, error := none, colors := some currentColors' },
        state := { customColors := customColors', currentColors := currentColors' },
        notified := broadcastColors hasListener tabs }

example :
    (addColor ⟨[], []⟩ 7 [1, 2] (fun _ => true) (some "#ff0000")).state.customColors =
      [⟨"custom_7", "customColor", 1, "#ff0000"⟩] := by decide

example :
    (addColor ⟨[⟨"custom_1", "customColor", 1, "#FF0000"⟩],
               [⟨"custom_1", "customColor", 1, "#FF0000"⟩]⟩ 9 [] (fun _ => true)
      (some "#ff0000")).resp.success = true := by decide

/-- The `customColors.forEach((color, index) => color.colorNumber = index + 1)`
renumbering pass (background.js lines 394-396), tracking the running index
`start`. -/
def reassignFrom (start : Nat) : List ColorRecord → List ColorRecord
  | [] => []
  | c :: cs => { c with colorNumber := start + 1 } :: reassignFrom (start + 1) cs

/-- Renumber a whole collection sequentially from 1. -/
def reassignNumbers (l : List ColorRecord) : List ColorRecord :=
  reassignFrom 0 l

/-- Response shape of the `deleteColor` message handler
(background.js lines 372-419). -/
structure DelResponse where
  success : Bool
  error : Option String
  colors : Option (List ColorRecord)
deriving Repr, DecidableEq

/-- Outcome of one run of the `deleteColor` handler. -/
structure DelOutcome where
  resp : DelResponse
  state : BgState
  notified : List Nat
deriving Repr, DecidableEq

/-- The `deleteColor` message handler (background.js lines 372-419):
reject a falsy id, look the id up with `findIndex`, `splice` it out,
renumber the remainder `index + 1`, persist, mirror, broadcast. -/
def deleteColor (st : BgState) (tabs : List Nat) (hasListener : Nat → Bool)
    (colorIdMsg : Option String) : DelOutcome :=
  let missingId : DelOutcome :=
    { resp := { success := false, error := some "Color ID is required", colors := none },
      state := st, notified := [] }
  match colorIdMsg with
  | none => missingId
  | some colorId =>
    if colorId = "" then missingId
    else
      match st.customColors.findIdx? (fun c => c.id = colorId) with
      | none =>
        { resp := { success := false, error := some "Color not found", colors := none },
          state := st, notified := [] }
      | some colorIndex =>
        let customColors' := reassignNumbers (st.customColors.eraseIdx colorIndex)
        { resp := { success := true, error := none, colors := some customColors' },
          state := { customColors := customColors', currentColors := customColors' },
          notified := broadcastColors hasListener tabs }

/-- Outcome of one run of the `clearCustomColors` handler: the response
(`success` plus the optional `noCustomColors` flag), the resulting state,
whether a storage write was issued, and the notified tabs. -/
structure ClearOutcome where
  success : Bool
  noCustomColors : Option Bool
  state : BgState
  wroteStorage : Bool
  notified : List Nat
deriving Repr, DecidableEq

/-- The `clearCustomColors` message handler (background.js lines 337-368):
if the stored collection is already empty, answer
`{ success: true, noCustomColors: true }` without writing; otherwise
persist an empty collection, empty the mirror and broadcast. -/
def clearCustomColors (st : BgState) (tabs : List Nat)
    (hasListener : Nat → Bool) : ClearOutcome :=
  if st.customColors.length = 0 then
    { success := true, noCustomColors := some true, state := st,
      wroteStorage := false, notified := [] }
  else
    { success := true, noCustomColors := none,
      state := { customColors := [], currentColors := [] },
      wroteStorage := true, notified := broadcastColors hasListener tabs }

/-- The switch of the `commands.onCommand` listener (background.js lines
249-292): map a command name to the color value it resolves to, `none`
when the mirror is too short (the JS `targetColor` stays `null`). -/
def resolveCommand (colors : List ColorRecord) (command : String) : Option String :=
  if command = "highlight_yellow" then
    if 1 ≤ colors.length then colors[0]?.map (fun c => c.color) else none
  else if command = "highlight_green" then
    if 2 ≤ colors.length then colors[1]?.map (fun c => c.color) else none
  else if command = "highlight_blue" then
    if 3 ≤ colors.length then colors[2]?.map (fun c => c.color) else none
  else if command = "highlight_pink" then
    if 4 ≤ colors.length then colors[3]?.map (fun c => c.color) else none
  else if command = "highlight_orange" then
    if 5 ≤ colors.length then colors[4]?.map (fun c => c.color) else none
  else if command = "highlight_custom_1" then
    if 5 < colors.length then colors[5]?.map (fun c => c.color) else none
  else if command = "highlight_custom_2" then
    if 6 < colors.length then colors[6]?.map (fun c => c.color) else none
  else if command = "highlight_custom_3" then
    if 7 < colors.length then colors[7]?.map (fun c => c.color) else none
  else if command = "highlight_custom_4" then
    if 8 < colors.length then colors[8]?.map (fun c => c.color) else none
  else if command = "highlight_custom_5" then
    if 9 < colors.length then colors[9]?.map (fun c => c.color) else none
  else none

/-- The `if (targetColor) { ... sendMessage ... }` guard (background.js
lines 295-306): the highlight action is dispatched exactly when the
resolved color is present and truthy (a non-empty string). -/
def dispatchedColor (colors : List ColorRecord) (command : String) : Option String :=
  match resolveCommand colors command with
  | none => none
  | some c => if c = "" then none else some c

/-- The options-page `addColor` (shortcuts-settings.js lines 441-483):
same capacity and case-insensitive duplicate checks as the background
handler, but the stored `color` field is upper-cased.  Returns the
collection written back to storage (unchanged when the add is refused). -/
def optionsAddColor (customColors : List ColorRecord) (now : Nat)
    (colorValue : String) : List ColorRecord :=
  if MAX_CUSTOM_COLORS ≤ customColors.length then customColors
  else if customColors.any (fun c => jsToLower c.color = jsToLower colorValue) then
    customColors
  else
    customColors ++
      [{ id := "custom_" ++ toString now, nameKey := "customColor",
         colorNumber := customColors.length + 1, color := jsToUpper colorValue }]

/-- A mutation request against the color collection: the payloads of an
`addColor` or `deleteColor` message. -/
inductive ColorOp where
  | addOp (now : Nat) (color : Option String)
  | delOp (colorId : Option String)
deriving Repr, DecidableEq

/-- State transition of one mutation request (broadcast targets are
irrelevant to the stored collection). -/
def applyOp (st : BgState) : ColorOp → BgState
  | .addOp now c => (addColor st now [] (fun _ => false) c).state
  | .delOp cid => (deleteColor st [] (fun _ => false) cid).state

/-- Run a sequence of mutation requests starting from the empty
collection (the extension ships with no default colors). -/
def runOps (ops : List ColorOp) : BgState :=
  ops.foldl applyOp ⟨[], []⟩

example :
    (runOps [.addOp 1 (some "#ff0000"), .addOp 2 (some "#00ff00"),
             .delOp (some "custom_1")]).customColors =
      [⟨"custom_2", "customColor", 1, "#00ff00"⟩] := by decide

/-- One highlight group as stored under a URL key; `groupId` is what
`deleteHighlight` filters on, the payload is opaque to the core. -/
structure HighlightGroup where
  groupId : Nat
  payload : String
deriving Repr, DecidableEq

/-- A value held in `browserAPI.storage.local` under a highlight-related
key: either a list of highlight groups (under `<url>`) or page metadata
(under `<url>_meta`). -/
inductive StoreVal where
  | hl (groups : List HighlightGroup)
  | meta (title : String) (lastUpdated : String)
deriving Repr, DecidableEq

/-- The per-URL part of `browserAPI.storage.local`, as an association
list from key to value (later writes shadow nothing: keys are unique by
construction of `storageSet`). -/
abbrev Storage := List (String × StoreVal)

/-- `storage.local.get([k])`. -/
def storageGet (s : Storage) (k : String) : Option StoreVal :=
  (s.find? (fun p => p.1 = k)).map (fun p => p.2)

/-- `storage.local.remove` of one key. -/
def storageRemove (s : Storage) (k : String) : Storage :=
  s.filter (fun p => ¬ p.1 = k)

/-- `storage.local.set({k: v})`. -/
def storageSet (s : Storage) (k : String) (v : StoreVal) : Storage :=
  storageRemove s k ++ [(k, v)]

/-- `cleanupEmptyHighlightData` (background.js lines 200-210): for a
truthy URL, `storage.local.remove([url, url + "_meta"])`. -/
def cleanupEmptyHighlightData (s : Storage) (url : String) : Storage :=
  if url = "" then s
  else storageRemove (storageRemove s url) (url ++ "_meta")

/-- `result[message.url] || []` as read by `getHighlights` and
`deleteHighlight` (background.js lines 330-332 and 534-535). -/
def getHighlightsFor (s : Storage) (url : String) : List HighlightGroup :=
  match storageGet s url with
  | some (.hl gs) => gs
  | _ => []

/-- The `saveHighlights` message handler (background.js lines 498-529):
with a non-empty list, write the highlights under `url` and refresh the
`url_meta` record with the tab title and timestamp; with an empty list,
remove both keys. -/
def saveHighlights (s : Storage) (url : String)
    (highlights : List HighlightGroup) (tabTitle nowIso : String) : Storage :=
  if 0 < highlights.length then
    let s1 := storageSet s url (.hl highlights)
    storageSet s1 (url ++ "_meta") (.meta tabTitle nowIso)
  else
    cleanupEmptyHighlightData s url

/-- The `deleteHighlight` message handler (background.js lines 532-561):
drop the group with the given `groupId`; if any groups remain, persist
them, otherwise remove the URL's data and metadata.  Returns the new
storage and the `highlights` field of the response. -/
def deleteHighlight (s : Storage) (url : String) (groupId : Nat) :
    Storage × List HighlightGroup :=
  let highlights := getHighlightsFor s url
  let updatedHighlights := highlights.filter (fun g => ¬ g.groupId = groupId)
  if 0 < updatedHighlights.length then
    (storageSet s url (.hl updatedHighlights), updatedHighlights)
  else
    (cleanupEmptyHighlightData s url, [])

/-- The `clearAllHighlights` message handler (background.js lines
564-577): unconditionally remove the URL's data and metadata. -/
def clearAllHighlights (s : Storage) (url : String) : Storage :=
  cleanupEmptyHighlightData s url

example :
    storageGet
      (clearAllHighlights
        [("u", .hl [⟨1, "x"⟩]), ("u_meta", .meta "t" "now")] "u") "u" = none := by
  decide

/-! ## Helper lemmas -/

theorem reassignFrom_length (s : Nat) (l : List ColorRecord) :
    (reassignFrom s l).length = l.length := by
  induction l generalizing s with
  | nil => rfl
  | cons c cs ih => simp [reassignFrom, ih]

theorem reassignFrom_getElem? (s j : Nat) (l : List ColorRecord) :
    (reassignFrom s l)[j]? =
      l[j]?.map (fun c => { c with colorNumber := s + j + 1 }) := by
  induction l generalizing s j with
  | nil => simp [reassignFrom]
  | cons c cs ih =>
    cases j with
    | zero => simp [reassignFrom]
    | succ j =>
      have harith : s + 1 + j + 1 = s + (j + 1) + 1 := by omega
      simp [reassignFrom, ih (s + 1) j, harith]

theorem reassignFrom_map_colorNumber (s : Nat) (l : List ColorRecord) :
    (reassignFrom s l).map (fun c => c.colorNumber) =
      List.range' (s + 1) l.length := by
  induction l generalizing s with
  | nil => simp [reassignFrom]
  | cons c cs ih => simp [reassignFrom, ih (s + 1), List.range'_succ]

theorem broadcastColors_eq_filter (hasListener : Nat → Bool) (tabs : List Nat) :
    broadcastColors hasListener tabs = tabs.filter hasListener := by
  induction tabs with
  | nil => rfl
  | cons a rest ih => simp [broadcastColors, sendColorsToTab, List.filter_cons, ih]

theorem storageGet_none_iff (s : Storage) (k : String) :
    storageGet s k = none ↔ ∀ p ∈ s, ¬ p.1 = k := by
  simp [storageGet, List.find?_eq_none]

theorem storageGet_storageRemove_self (s : Storage) (k : String) :
    storageGet (storageRemove s k) k = none := by
  rw [storageGet_none_iff]
  intro p hp
  have := List.mem_filter.mp hp
  simpa using this.2

theorem storageGet_storageRemove_of_none (s : Storage) (k k' : String)
    (h : storageGet s k = none) : storageGet (storageRemove s k') k = none := by
  rw [storageGet_none_iff] at h ⊢
  intro p hp
  exact h p (List.mem_filter.mp hp).1

theorem cleanup_removes_both (s : Storage) (url : String) (h : ¬ url = "") :
    storageGet (cleanupEmptyHighlightData s url) url = none ∧
    storageGet (cleanupEmptyHighlightData s url) (url ++ "_meta") = none := by
  unfold cleanupEmptyHighlightData
  rw [if_neg h]
  exact ⟨storageGet_storageRemove_of_none _ _ _ (storageGet_storageRemove_self s url),
         storageGet_storageRemove_self _ _⟩

/-! ## Claim theorems -/

/-- Concrete state holding one custom color `#FF0000`, used as a witness
input for the duplicate-add claims. -/
def dupDemoState : BgState :=
  ⟨[⟨"custom_1", "customColor", 1, "#FF0000"⟩],
   [⟨"custom_1", "customColor", 1, "#FF0000"⟩]⟩

/-- C1 (counterexample): on a collection already holding `#FF0000`, an
`addColor` request for `#ff0000` (a case-insensitive duplicate) is
answered with `success = true` and no error field — not with
`success = false` and a `DuplicateColor` error as the claim states. -/
theorem addColor_duplicate_cex :
    (addColor dupDemoState 2 [] (fun _ => false) (some "#ff0000")).resp.success = true ∧
    (addColor dupDemoState 2 [] (fun _ => false) (some "#ff0000")).resp.error = none := by
  decide

/-- C1 (amended): an `addColor` request whose color matches an existing
record case-insensitively performs no insertion — storage and the
in-memory mirror are unchanged and nothing is broadcast — but the handler
responds with `success = true`, the unchanged mirror as `colors`, and no
error field. -/
theorem addColor_duplicate_noop (st : BgState) (now : Nat) (tabs : List Nat)
    (hasListener : Nat → Bool) (v : String) (hv : ¬ v = "")
    (hcap : st.customColors.length < MAX_CUSTOM_COLORS)
    (hdup : st.customColors.any (fun c => jsToLower c.color = jsToLower v) = true) :
    addColor st now tabs hasListener (some v) =
      { resp := { success := true, error := none, colors := some st.currentColors },
        state := st, notified := [] } := by
  unfold addColor
  simp [hv, hdup, Nat.not_le.mpr hcap]

/-- Witness for the amended C1 at a concrete duplicate request. -/
theorem addColor_duplicate_noop_witness :
    addColor dupDemoState 9 [4] (fun _ => true) (some "#Ff0000") =
      { resp := { success := true, error := none,
                  colors := some dupDemoState.currentColors },
        state := dupDemoState, notified := [] } :=
  addColor_duplicate_noop dupDemoState 9 [4] (fun _ => true) "#Ff0000"
    (by decide) (by decide) (by decide)

/-- Twenty pairwise-distinct custom colors: a collection at capacity. -/
def twentyColors : List ColorRecord :=
  (List.range 20).map
    (fun i => ⟨"custom_" ++ toString i, "customColor", i + 1, "#0000" ++ toString i⟩)

/-- C2: when the stored collection already holds the maximum of 20
colors, any `addColor` request carrying a (non-empty) color value is
rejected: `success = false` with the capacity error (the string
`"Maximum color limit reached"`, which the spec names `CapacityExceeded`),
and storage, mirror and broadcast targets are untouched. -/
theorem addColor_at_capacity (st : BgState) (now : Nat) (tabs : List Nat)
    (hasListener : Nat → Bool) (v : String) (hv : ¬ v = "")
    (hfull : st.customColors.length = MAX_CUSTOM_COLORS) :
    addColor st now tabs hasListener (some v) =
      { resp := { success := false, error := some "Maximum color limit reached",
                  colors := some st.currentColors },
        state := st, notified := [] } := by
  unfold addColor
  simp [hv, hfull]

/-- Witness for C2 on a concrete 20-color collection. -/
theorem addColor_at_capacity_witness :
    addColor ⟨twentyColors, twentyColors⟩ 99 [1, 2] (fun _ => true) (some "#123456") =
      { resp := { success := false, error := some "Maximum color limit reached",
                  colors := some twentyColors },
        state := ⟨twentyColors, twentyColors⟩, notified := [] } :=
  addColor_at_capacity ⟨twentyColors, twentyColors⟩ 99 [1, 2] (fun _ => true)
    "#123456" (by decide) (by decide)

/-- C5 (counterexample): a record created through the background-script
`addColor` handler from the lowercase input `#ff0000` is persisted with
its `color` field exactly `"#ff0000"`, which is not upper-case hex; the
claim that every persisted record stores canonical uppercase regardless
of write path is false. -/
theorem storedColor_not_uppercase_cex :
    ((addColor ⟨[], []⟩ 3 [] (fun _ => false) (some "#ff0000")).state.customColors.all
      (fun c => c.color = jsToUpper c.color)) = false := by
  decide

/-- C5 (amended): the two write paths normalize differently — the
background `addColor` handler persists the color value exactly as
received, while the options-page picker persists it upper-cased.  Each
path either leaves the collection unchanged (capacity/duplicate refusal)
or appends one record with the corresponding color field. -/
theorem addColor_casing_by_path (st : BgState) (now : Nat) (tabs : List Nat)
    (hasListener : Nat → Bool) (v : String) (cs : List ColorRecord) :
    ((addColor st now tabs hasListener (some v)).state.customColors = st.customColors ∨
     (addColor st now tabs hasListener (some v)).state.customColors =
       st.customColors ++
         [⟨"custom_" ++ toString now, "customColor", st.customColors.length + 1, v⟩]) ∧
    (optionsAddColor cs now v = cs ∨
     optionsAddColor cs now v =
       cs ++ [⟨"custom_" ++ toString now, "customColor", cs.length + 1, jsToUpper v⟩]) := by
  constructor
  · unfold addColor
    by_cases hv : v = ""
    · simp [hv]
    · by_cases hcap : MAX_CUSTOM_COLORS ≤ st.customColors.length
      · simp [hv, hcap]
      · by_cases hdup :
          st.customColors.any (fun c => jsToLower c.color = jsToLower v) = true
        · simp [hv, hcap, hdup]
        · simp [hv, hcap, hdup]
  · unfold optionsAddColor
    by_cases hcap : MAX_CUSTOM_COLORS ≤ cs.length
    · simp [hcap]
    · by_cases hdup : cs.any (fun c => jsToLower c.color = jsToLower v) = true
      · simp [hcap, hdup]
      · simp [hcap, hdup]

/-- C8: a `clearCustomColors` request against an already-empty collection
answers `{ success := true, noCustomColors := true }`, issues no storage
write, leaves the state unchanged and notifies no tab. -/
theorem clearCustomColors_already_empty (st : BgState) (tabs : List Nat)
    (hasListener : Nat → Bool) (h : st.customColors = []) :
    clearCustomColors st tabs hasListener =
      { success := true, noCustomColors := some true, state := st,
        wroteStorage := false, notified := [] } := by
  unfold clearCustomColors
  simp [h]

/-- Witness for C8 at the empty state. -/
theorem clearCustomColors_already_empty_witness :
    clearCustomColors ⟨[], []⟩ [1, 2, 3] (fun _ => true) =
      { success := true, noCustomColors := some true, state := ⟨[], []⟩,
        wroteStorage := false, notified := [] } :=
  clearCustomColors_already_empty ⟨[], []⟩ [1, 2, 3] (fun _ => true) rfl

/-- C10: an `addColor` request whose color payload is absent or the empty
string (both falsy in JS) is answered with `success = false` and no
`error` or `colors` field, and neither storage, mirror nor any tab is
touched. -/
theorem addColor_missing_value (st : BgState) (now : Nat) (tabs : List Nat)
    (hasListener : Nat → Bool) (m : Option String)
    (hm : m = none ∨ m = some "") :
    addColor st now tabs hasListener m =
      { resp := { success := false, error := none, colors := none },
        state := st, notified := [] } := by
  rcases hm with h | h <;> subst h <;> simp [addColor]

/-- Witness for C10 with an absent color value. -/
theorem addColor_missing_value_witness :
    addColor dupDemoState 5 [1] (fun _ => true) none =
      { resp := { success := false, error := none, colors := none },
        state := dupDemoState, notified := [] } :=
  addColor_missing_value dupDemoState 5 [1] (fun _ => true) none (Or.inl rfl)

/-- Three open tabs, used in the broadcast witness. -/
def demoTabs : List Nat := [1, 2, 3]

/-- A listener map where only tab 2 has lost its listener. -/
def secondTabDead : Nat → Bool := fun t => ¬ t = 2

/-- C7: in the post-mutation broadcast loop every tab with a listener
receives the `colorsUpdated` notification, no matter which other tabs
fail (each delivery error is caught inside the loop); and the `addColor`
handler's own response and resulting state are identical under any two
listener maps, so a delivery failure never changes the mutation's
success. -/
theorem broadcast_failure_isolated (tabs : List Nat) (hasListener : Nat → Bool)
    (t : Nat) (ht : t ∈ tabs) (hl : hasListener t = true) :
    t ∈ broadcastColors hasListener tabs ∧
    ∀ (st : BgState) (now : Nat) (m : Option String) (other : Nat → Bool),
      (addColor st now tabs hasListener m).resp = (addColor st now tabs other m).resp ∧
      (addColor st now tabs hasListener m).state = (addColor st now tabs other m).state := by
  constructor
  · rw [broadcastColors_eq_filter]
    exact List.mem_filter.mpr ⟨ht, hl⟩
  · intro st now m other
    cases m with
    | none => exact ⟨rfl, rfl⟩
    | some v =>
      unfold addColor
      by_cases hv : v = ""
      · simp [hv]
      · by_cases hcap : MAX_CUSTOM_COLORS ≤ st.customColors.length
        · simp [hv, hcap]
        · by_cases hdup :
            st.customColors.any (fun c => jsToLower c.color = jsToLower v) = true
          · simp [hv, hcap, hdup]
          · simp [hv, hcap, hdup]

/-- Witness for C7: with tabs `[1, 2, 3]` and tab 2's listener gone,
tabs 1 and 3 are still notified. -/
theorem broadcast_failure_isolated_witness :
    1 ∈ broadcastColors secondTabDead demoTabs ∧
    3 ∈ broadcastColors secondTabDead demoTabs :=
  ⟨(broadcast_failure_isolated demoTabs secondTabDead 1 (by decide) (by decide)).1,
   (broadcast_failure_isolated demoTabs secondTabDead 3 (by decide) (by decide)).1⟩

/-- C9: every path that empties a URL's highlight collection —
`saveHighlights` with an empty list, `deleteHighlight` removing the last
group, and `clearAllHighlights` — removes both the URL's data key and its
`_meta` key from storage. -/
theorem emptied_url_removes_data_and_meta (s : Storage) (url : String)
    (hurl : ¬ url = "") (tabTitle nowIso : String) (groupId : Nat) :
    (storageGet (saveHighlights s url [] tabTitle nowIso) url = none ∧
     storageGet (saveHighlights s url [] tabTitle nowIso) (url ++ "_meta") = none) ∧
    ((getHighlightsFor s url).filter (fun g => ¬ g.groupId = groupId) = [] →
      storageGet (deleteHighlight s url groupId).1 url = none ∧
      storageGet (deleteHighlight s url groupId).1 (url ++ "_meta") = none) ∧
    (storageGet (clearAllHighlights s url) url = none ∧
     storageGet (clearAllHighlights s url) (url ++ "_meta") = none) := by
  refine ⟨?_, ?_, ?_⟩
  · have h : saveHighlights s url [] tabTitle nowIso = cleanupEmptyHighlightData s url := by
      simp [saveHighlights]
    rw [h]
    exact cleanup_removes_both s url hurl
  · intro hempty
    simp only [decide_not] at hempty
    have h : (deleteHighlight s url groupId).1 = cleanupEmptyHighlightData s url := by
      simp [deleteHighlight, hempty]
    rw [h]
    exact cleanup_removes_both s url hurl
  · exact cleanup_removes_both s url hurl

theorem applyOp_preserves_dense (st : BgState) (op : ColorOp)
    (h : st.customColors.map (fun c => c.colorNumber) =
      List.range' 1 st.customColors.length) :
    (applyOp st op).customColors.map (fun c => c.colorNumber) =
      List.range' 1 (applyOp st op).customColors.length := by
  cases op with
  | addOp now c =>
    cases c with
    | none => simpa [applyOp, addColor] using h
    | some v =>
      by_cases hv : v = ""
      · simpa [applyOp, addColor, hv] using h
      · by_cases hcap : MAX_CUSTOM_COLORS ≤ st.customColors.length
        · simpa [applyOp, addColor, hv, hcap] using h
        · by_cases hdup :
            st.customColors.any (fun c => jsToLower c.color = jsToLower v) = true
          · simpa [applyOp, addColor, hv, hcap, hdup] using h
          · have hc : List.range' 1 (st.customColors.length + 1) =
                List.range' 1 st.customColors.length ++ [1 + 1 * st.customColors.length] :=
              List.range'_concat 1 st.customColors.length
            simp [applyOp, addColor, hv, hcap, hdup, h, hc]
            omega
  | delOp cid =>
    cases cid with
    | none => simpa [applyOp, deleteColor] using h
    | some c =>
      by_cases hc : c = ""
      · simpa [applyOp, deleteColor, hc] using h
      · cases hfind : st.customColors.findIdx? (fun r => r.id = c) with
        | none => simpa [applyOp, deleteColor, hc, hfind] using h
        | some i =>
          simp [applyOp, deleteColor, hc, hfind, reassignNumbers,
            reassignFrom_map_colorNumber, reassignFrom_length]

/-- C3: starting from the empty collection, after every sequence of
`addColor` / `deleteColor` requests (hence after each operation of any
such sequence) the stored collection's `colorNumber` values are exactly
the list `1, 2, ..., N` in order, where `N` is the collection's size —
dense, no gaps, no duplicates.  Capacity is enforced by the handlers
themselves, so this holds for all sequences. -/
theorem runOps_colorNumbers_dense (ops : List ColorOp) :
    (runOps ops).customColors.map (fun c => c.colorNumber) =
      List.range' 1 (runOps ops).customColors.length := by
  suffices hgen : ∀ st : BgState,
      st.customColors.map (fun c => c.colorNumber) =
        List.range' 1 st.customColors.length →
      (ops.foldl applyOp st).customColors.map (fun c => c.colorNumber) =
        List.range' 1 (ops.foldl applyOp st).customColors.length by
    exact hgen ⟨[], []⟩ (by simp)
  induction ops with
  | nil => intro st h; simpa using h
  | cons op rest ih => intro st h; exact ih _ (applyOp_preserves_dense st op h)

/-- C6: the five legacy command names resolve to the colors at positions
0-4 and the custom-slot commands `highlight_custom_N` (N = 1..5) to
positions `4 + N`; whenever the in-memory mirror has fewer entries than
the required position needs, no highlight action is dispatched.  In
particular the legacy second-position command (`highlight_green`) on a
one-color mirror dispatches nothing. -/
theorem command_position_routing (colors : List ColorRecord) :
    (∀ h : 0 < colors.length,
      resolveCommand colors "highlight_yellow" = some colors[0].color) ∧
    (colors.length < 1 → dispatchedColor colors "highlight_yellow" = none) ∧
    (∀ h : 1 < colors.length,
      resolveCommand colors "highlight_green" = some colors[1].color) ∧
    (colors.length < 2 → dispatchedColor colors "highlight_green" = none) ∧
    (∀ h : 2 < colors.length,
      resolveCommand colors "highlight_blue" = some colors[2].color) ∧
    (colors.length < 3 → dispatchedColor colors "highlight_blue" = none) ∧
    (∀ h : 3 < colors.length,
      resolveCommand colors "highlight_pink" = some colors[3].color) ∧
    (colors.length < 4 → dispatchedColor colors "highlight_pink" = none) ∧
    (∀ h : 4 < colors.length,
      resolveCommand colors "highlight_orange" = some colors[4].color) ∧
    (colors.length < 5 → dispatchedColor colors "highlight_orange" = none) ∧
    (∀ h : 5 < colors.length,
      resolveCommand colors "highlight_custom_1" = some colors[5].color) ∧
    (colors.length < 6 → dispatchedColor colors "highlight_custom_1" = none) ∧
    (∀ h : 6 < colors.length,
      resolveCommand colors "highlight_custom_2" = some colors[6].color) ∧
    (colors.length < 7 → dispatchedColor colors "highlight_custom_2" = none) ∧
    (∀ h : 7 < colors.length,
      resolveCommand colors "highlight_custom_3" = some colors[7].color) ∧
    (colors.length < 8 → dispatchedColor colors "highlight_custom_3" = none) ∧
    (∀ h : 8 < colors.length,
      resolveCommand colors "highlight_custom_4" = some colors[8].color) ∧
    (colors.length < 9 → dispatchedColor colors "highlight_custom_4" = none) ∧
    (∀ h : 9 < colors.length,
      resolveCommand colors "highlight_custom_5" = some colors[9].color) ∧
    (colors.length < 10 → dispatchedColor colors "highlight_custom_5" = none) ∧
    (colors.length = 1 → dispatchedColor colors "highlight_green" = none) := by
  refine ⟨?_, ?_, ?_, ?_, ?_, ?_, ?_, ?_, ?_, ?_, ?_,
          ?_, ?_, ?_, ?_, ?_, ?_, ?_, ?_, ?_, ?_⟩ <;>
    intro h <;>
    first
    | (simp [resolveCommand, List.getElem?_eq_getElem h] <;>
        first
        | omega
        | exact List.length_pos.mp h)
    | (have hno : ¬ 1 ≤ colors.length := by omega
       simp [dispatchedColor, resolveCommand, hno])
    | (have hno : ¬ 2 ≤ colors.length := by omega
       simp [dispatchedColor, resolveCommand, hno])
    | (have hno : ¬ 3 ≤ colors.length := by omega
       simp [dispatchedColor, resolveCommand, hno])
    | (have hno : ¬ 4 ≤ colors.length := by omega
       simp [dispatchedColor, resolveCommand, hno])
    | (have hno : ¬ 5 ≤ colors.length := by omega
       simp [dispatchedColor, resolveCommand, hno])
    | (have hno : ¬ 5 < colors.length := by omega
       simp [dispatchedColor, resolveCommand, hno])
    | (have hno : ¬ 6 < colors.length := by omega
       simp [dispatchedColor, resolveCommand, hno])
    | (have hno : ¬ 7 < colors.length := by omega
       simp [dispatchedColor, resolveCommand, hno])
    | (have hno : ¬ 8 < colors.length := by omega
       simp [dispatchedColor, resolveCommand, hno])
    | (have hno : ¬ 9 < colors.length := by omega
       simp [dispatchedColor, resolveCommand, hno])

theorem reassignNumbers_getElem? (j : Nat) (l : List ColorRecord) :
    (reassignNumbers l)[j]? =
      l[j]?.map (fun c => { c with colorNumber := j + 1 }) := by
  simpa using reassignFrom_getElem? 0 j l

/-- C4: deleting the color with the id found at 1-based position `k` of a
dense collection of size `N` shortens it to `N - 1` records, leaves every
record previously at a position below `k` entirely unchanged (all fields,
`colorNumber` included), and moves every record previously at a position
in `k+1..N` one slot down with its `colorNumber` decreased by exactly
one and its other fields kept. -/
theorem deleteColor_renumbers_shift (st : BgState) (tabs : List Nat)
    (hasListener : Nat → Bool) (cid : String) (hcid : ¬ cid = "")
    (k : Nat) (hk1 : 1 ≤ k) (hkN : k ≤ st.customColors.length)
    (hdense : st.customColors.map (fun c => c.colorNumber) =
      List.range' 1 st.customColors.length)
    (hfind : st.customColors.findIdx? (fun c => c.id = cid) = some (k - 1)) :
    ((deleteColor st tabs hasListener (some cid)).state.customColors.length =
      st.customColors.length - 1) ∧
    (∀ j, j < k - 1 →
      (deleteColor st tabs hasListener (some cid)).state.customColors[j]? =
        st.customColors[j]?) ∧
    (∀ j, k - 1 ≤ j → j < st.customColors.length - 1 →
      (deleteColor st tabs hasListener (some cid)).state.customColors[j]? =
        st.customColors[j + 1]?.map
          (fun c => { c with colorNumber := c.colorNumber - 1 })) := by
  have hres : (deleteColor st tabs hasListener (some cid)).state.customColors =
      reassignNumbers (st.customColors.eraseIdx (k - 1)) := by
    simp [deleteColor, hcid, hfind]
  have hklt : k - 1 < st.customColors.length := by omega
  have hnum : ∀ j, j < st.customColors.length → ∀ c,
      st.customColors[j]? = some c → c.colorNumber = j + 1 := by
    intro j hj c hc
    have h1 : (st.customColors.map (fun c => c.colorNumber))[j]? =
        some c.colorNumber := by
      rw [List.getElem?_map, hc]; rfl
    rw [hdense, List.getElem?_range' 1 1 hj] at h1
    have h2 := Option.some.inj h1
    omega
  refine ⟨?_, ?_, ?_⟩
  · simp [hres, reassignNumbers, reassignFrom_length, List.length_eraseIdx, hklt]
  · intro j hj
    have hjlen : j < st.customColors.length := by omega
    have hget := List.getElem?_eq_getElem hjlen
    have hcn : (st.customColors[j]).colorNumber = j + 1 := hnum j hjlen _ hget
    rw [hres, reassignNumbers, reassignFrom_getElem?, List.getElem?_eraseIdx,
      if_pos hj, hget]
    simp only [Option.map_some']
    have h01 : 0 + j + 1 = (st.customColors[j]).colorNumber := by omega
    rw [h01]
  · intro j hj1 hj2
    have hj1len : j + 1 < st.customColors.length := by omega
    have hget := List.getElem?_eq_getElem hj1len
    have hcn : (st.customColors[j + 1]).colorNumber = j + 2 :=
      hnum (j + 1) hj1len _ hget
    rw [hres, reassignNumbers, reassignFrom_getElem?, List.getElem?_eraseIdx,
      if_neg (by omega), hget]
    simp only [Option.map_some', Option.some.injEq]
    have h01 : 0 + j + 1 = (st.customColors[j + 1]).colorNumber - 1 := by omega
    rw [h01]

/-- A dense three-color collection for the deletion witness. -/
def threeColors : List ColorRecord :=
  [⟨"custom_1", "customColor", 1, "#111111"⟩,
   ⟨"custom_2", "customColor", 2, "#222222"⟩,
   ⟨"custom_3", "customColor", 3, "#333333"⟩]

/-- Witness for C4: deleting the middle color of a dense three-color
collection keeps the first record, shifts the third down with its number
decreased by one, and leaves two records. -/
theorem deleteColor_renumbers_shift_witness :
    ((deleteColor ⟨threeColors, threeColors⟩ [] (fun _ => false)
        (some "custom_2")).state.customColors.length = 2) ∧
    ((deleteColor ⟨threeColors, threeColors⟩ [] (fun _ => false)
        (some "custom_2")).state.customColors[0]? = threeColors[0]?) ∧
    ((deleteColor ⟨threeColors, threeColors⟩ [] (fun _ => false)
        (some "custom_2")).state.customColors[1]? =
      threeColors[2]?.map (fun c => { c with colorNumber := c.colorNumber - 1 })) := by
  obtain ⟨hlen, hlt, hge⟩ :=
    deleteColor_renumbers_shift ⟨threeColors, threeColors⟩ [] (fun _ => false)
      "custom_2" (by decide) 2 (by decide) (by decide) (by decide) (by decide)
  exact ⟨hlen, hlt 0 (by decide), hge 1 (by decide) (by decide)⟩

/-- A single-color mirror used as witness input for the routing claim. -/
def demoRec : ColorRecord := ⟨"custom_1", "customColor", 1, "#ABCDEF"⟩

/-- Witness for C6: on a one-color mirror the first-position command
resolves to that color and the second-position command dispatches
nothing. -/
theorem command_position_routing_witness :
    resolveCommand [demoRec] "highlight_yellow" = some "#ABCDEF" ∧
    dispatchedColor [demoRec] "highlight_green" = none := by
  obtain ⟨h1, -, -, -, -, -, -, -, -, -, -, -, -, -, -, -, -, -, -, -, h21⟩ :=
    command_position_routing [demoRec]
  exact ⟨(h1 (by decide)).trans rfl, h21 rfl⟩

/-- Storage holding one highlight group and its metadata for URL `u`. -/
def demoStorage : Storage :=
  [("u", .hl [⟨1, "x"⟩]), ("u_meta", .meta "t" "now")]

/-- Witness for C9: deleting the only group of URL `u` removes both the
data key and the `_meta` key. -/
theorem emptied_url_removes_data_and_meta_witness :
    storageGet (deleteHighlight demoStorage "u" 1).1 "u" = none ∧
    storageGet (deleteHighlight demoStorage "u" 1).1 ("u" ++ "_meta") = none :=
  (emptied_url_removes_data_and_meta demoStorage "u" (by decide) "t" "now" 1).2.1
    (by decide)
